import Mathlib

/-!
Verification development for the actasynth-fe workflow core.

The definitions below are a shallow embedding of the TypeScript sources:
  src/types/workflow.ts        (data model)
  src/types (part_004)         (API error types)
  src/lib/api.ts               (apiRequest, useExecuteWorkflow)
  src/components/workflow/steps/input-step.tsx   (inputSchema)
  src/components/workflow/steps/processing-step.tsx (mutation handlers)
  src/components/workflow/workflow-wizard.tsx    (wizard state machine)

Numbers that are JavaScript floats in the source (costs, latencies,
confidences) are modelled as rationals; the wizard temperature, which the
configuration slider constrains to multiples of 0.1 between 0.0 and 2.0,
is modelled in tenths as a natural number (7 stands for 0.7).  Strings are
modelled with Lean strings (length counts characters).
-/

/-- Provider enumeration from src/types/workflow.ts. -/
inductive Provider where
  | openai
  | anthropic
  | google
deriving DecidableEq

/-- Language enumeration from src/types/workflow.ts (named LanguageTag
here because Mathlib already declares Language). -/
inductive LanguageTag where
  | en
  | es
  | fr
  | de
  | other
deriving DecidableEq

/-- PII type enumeration from src/types/workflow.ts. -/
inductive PIIType where
  | email
  | phone
  | ssn
  | credit_card
  | name
  | address
deriving DecidableEq

/-- Persona enumeration from src/types/workflow.ts. -/
inductive Persona where
  | executive
  | technical
  | business_user
  | procurement
deriving DecidableEq

/-- RawInput from src/types/workflow.ts: the user-authored request.
Optional fields are Option; metadata is an association list of string
pairs. -/
structure RawInput where
  content : String
  source : Option String
  customer_id : Option String
  metadata : Option (List (String × String))
deriving DecidableEq

/-- ValueProposition from src/types/workflow.ts. -/
structure ValueProposition where
  headline : String
  problem : String
  solution : String
  differentiation : String
  quantified_value : Option String
  call_to_action : String
  persona : Persona
  key_talking_points : List String
  generated_at : String
deriving DecidableEq

/-- PIIDetection from src/types/workflow.ts. -/
structure PIIDetection where
  pii_type : PIIType
  value : String
  confidence : ℚ
  location : ℕ × ℕ
deriving DecidableEq

/-- NormalizedInput from src/types/workflow.ts. -/
structure NormalizedInput where
  content : String
  language : LanguageTag
  detected_pii : List PIIDetection
  has_pii : Bool
  cleaned_content : String
  word_count : ℕ
  processed_at : String
deriving DecidableEq

/-- ExtractedData from src/types/workflow.ts. -/
structure ExtractedData where
  problem_statement : String
  current_solution : Option String
  desired_outcome : String
  pain_points : List String
  value_drivers : List String
  stakeholders : List String
  timeline : Option String
  budget_signals : Option String
  confidence_score : ℚ
deriving DecidableEq

/-- ClaimVerification from src/types/workflow.ts. -/
structure ClaimVerification where
  claim : String
  supported_by_input : Bool
  evidence : Option String
  confidence : ℚ
deriving DecidableEq

/-- SelfCheckResult from src/types/workflow.ts. -/
structure SelfCheckResult where
  verifications : List ClaimVerification
  overall_accuracy : ℚ
  hallucination_risk : ℚ
  approved : Bool
  rejection_reason : Option String
deriving DecidableEq

/-- WorkflowResult from src/types/workflow.ts: the complete remote
pipeline output envelope. -/
structure WorkflowResult where
  run_id : String
  value_proposition : ValueProposition
  normalized_input : NormalizedInput
  extracted_data : ExtractedData
  self_check : SelfCheckResult
  total_latency_ms : ℚ
  total_cost_usd : ℚ
  provider_used : String
  model_used : String
  success : Bool
  error : Option String
deriving DecidableEq

/-- ValidationError from the API types file (part_004): one field-level
validation entry of an error body.  A loc component is a string or a
number. -/
inductive LocKey where
  | s (v : String)
  | n (v : ℕ)
deriving DecidableEq

/-- ValidationError structure from the API types file (part_004). -/
structure ValidationError where
  loc : List LocKey
  msg : String
  type : String
deriving DecidableEq

/-! ## RawInput validator (src/components/workflow/steps/input-step.tsx)

The zod schema is
  content: z.string().min(10, message)
with source and customer_id optional strings.  zod .min compares the raw
string length; no trimming is applied. -/

/-- Message attached to the zod minimum-length rule in input-step.tsx. -/
def contentTooShortMsg : String := "Content must be at least 10 characters"

/-- Minimum content length enforced by inputSchema. -/
def contentMinLength : ℕ := 10

/-- Embedding of the inputSchema content rule: some error message when the
rule fails, none when the content passes. -/
def validateContent (s : String) : Option String :=
  if s.length < contentMinLength then some contentTooShortMsg else none

/-- Whitespace recogniser of JavaScript String.prototype.trim (the
common whitespace characters; the full JavaScript set is larger but
agrees on these). -/
def isJsSpace (c : Char) : Bool :=
  c == ' ' || c == '\t' || c == '\n' || c == '\r'

/-- JavaScript String.prototype.trim at the character level: drop
leading and trailing whitespace.  The source validator never calls it;
it is needed to state claims that speak about trimmed length. -/
def jsTrim (s : String) : String :=
  String.mk (((s.data.dropWhile isJsSpace).reverse.dropWhile isJsSpace).reverse)

/-! ## Query construction (useExecuteWorkflow in src/lib/api.ts)

useExecuteWorkflow builds URLSearchParams from provider and
temperature.toString(), then appends model only when model is truthy; in
JavaScript an empty string is falsy, so an empty model is dropped as
well.  The query is modelled as an association list in insertion order;
the temperature is in tenths (0 to 20 covering the slider domain 0.0 to
2.0). -/

/-- Wire tag of a provider, as the string union in the source. -/
def Provider.toKey : Provider → String
  | .openai => "openai"
  | .anthropic => "anthropic"
  | .google => "google"

/-- Inverse of Provider.toKey: recognise a provider tag. -/
def parseProviderTag : String → Option Provider
  | "openai" => some Provider.openai
  | "anthropic" => some Provider.anthropic
  | "google" => some Provider.google
  | _ => none

/-- JavaScript Number.toString for a temperature given in tenths:
whole values print without a fractional part (1 prints as 1, not 1.0),
others print one fractional digit. -/
def tempToString (t : ℕ) : String :=
  if t % 10 = 0 then toString (t / 10)
  else toString (t / 10) ++ "." ++ toString (t % 10)

/-- Numeric value of a decimal digit character. -/
def digitVal (c : Char) : Option ℕ :=
  if c.isDigit then some (c.toNat - 48) else none

/-- Numeric value of a non-empty digit string. -/
def digitsVal : List Char → Option ℕ
  | [] => none
  | ds => go ds 0
where go : List Char → ℕ → Option ℕ
  | [], acc => some acc
  | c :: rest, acc =>
    match digitVal c with
    | some d => go rest (acc * 10 + d)
    | none => none

/-- Decode a temperature string back to tenths: a whole number, or a
whole part followed by a dot and one fractional digit. -/
def parseTemp (s : String) : Option ℕ :=
  let w := s.data.takeWhile (fun c => c ≠ '.')
  match s.data.dropWhile (fun c => c ≠ '.') with
  | [] => (digitsVal w).map (· * 10)
  | _ :: f =>
    match digitsVal w, f with
    | some a, [d] => (digitVal d).map (fun b => a * 10 + b)
    | _, _ => none

/-- First-match lookup in an association list of strings, mirroring
URLSearchParams.get. -/
def lookupStr : List (String × String) → String → Option String
  | [], _ => none
  | (k, v) :: rest, key => if k = key then some v else lookupStr rest key

/-- Query parameters built by useExecuteWorkflow: provider and
temperature always, model appended only when it is truthy (present and
non-empty). -/
def buildExecuteQuery (p : Provider) (model : Option String) (t : ℕ) :
    List (String × String) :=
  [("provider", p.toKey), ("temperature", tempToString t)] ++
    (match model with
      | some m => if m = "" then [] else [("model", m)]
      | none => [])

/-! ## JSON bodies (JSON.stringify / response.json in src/lib/api.ts)

The JSON text layer is external library behaviour; bodies are modelled at
the level of the JSON value tree that JSON.stringify produces and
JSON.parse recovers.  JSON.stringify omits object properties whose value
is undefined, so optional RawInput fields contribute a field only when
present. -/

/-- JSON value tree. -/
inductive Json where
  | null
  | bool (b : Bool)
  | num (n : ℚ)
  | str (s : String)
  | arr (elems : List Json)
  | obj (fields : List (String × Json))

/-- First-match field lookup in a JSON object field list. -/
def lookupField : List (String × Json) → String → Option Json
  | [], _ => none
  | (k, v) :: rest, key => if k = key then some v else lookupField rest key

/-- Field access on a JSON value: some value for an object that has the
field, none otherwise. -/
def Json.getField : Json → String → Option Json
  | .obj fs, k => lookupField fs k
  | _, _ => none

/-- Metadata object serialization: string-to-string mapping as a JSON
object. -/
def metaJson (m : List (String × String)) : Json :=
  .obj (m.map fun kv => (kv.1, .str kv.2))

/-- Optional property: contributes a field only when the value is
present, as JSON.stringify does for undefined. -/
def optField (k : String) (v : Option Json) : List (String × Json) :=
  match v with
  | some j => [(k, j)]
  | none => []

/-- Body built by JSON.stringify(input) in useExecuteWorkflow, with the
property order of the RawInput object. -/
def encodeRawInput (i : RawInput) : Json :=
  .obj ([("content", .str i.content)] ++
    optField "source" (i.source.map .str) ++
    optField "customer_id" (i.customer_id.map .str) ++
    optField "metadata" (i.metadata.map metaJson))

/-- Decode a JSON value as a string. -/
def decodeStr : Json → Option String
  | .str s => some s
  | _ => none

/-- Decode a JSON object field list as a string-to-string mapping. -/
def decodeMetaFields : List (String × Json) → Option (List (String × String))
  | [] => some []
  | (k, v) :: rest =>
    match v with
    | .str s => (decodeMetaFields rest).map (fun r => (k, s) :: r)
    | _ => none

/-- Decode a JSON value as a string-to-string mapping. -/
def decodeMeta : Json → Option (List (String × String))
  | .obj fs => decodeMetaFields fs
  | _ => none

/-- Decode an optional property: missing field decodes to none, a
present field must decode with the given decoder. -/
def decodeOptField (j : Json) (k : String) (dec : Json → Option α) :
    Option (Option α) :=
  match j.getField k with
  | none => some none
  | some v => (dec v).map some

/-- Decode a JSON value back into a RawInput. -/
def decodeRawInput (j : Json) : Option RawInput :=
  match j.getField "content" with
  | some (.str c) =>
    match decodeOptField j "source" decodeStr,
        decodeOptField j "customer_id" decodeStr,
        decodeOptField j "metadata" decodeMeta with
    | some so, some ci, some me => some ⟨c, so, ci, me⟩
    | _, _, _ => none
  | _ => none

/-! ## apiRequest (src/lib/api.ts)

apiRequest issues the fetch and normalizes failures into
APIRequestError.  The branches of the source map onto the constructors
of FetchOutcome:
  - success: response.ok was true; the body field is the result of
    response.json() (an error value carries the thrown parse-error
    message, which the outer catch turns into statusCode 0);
  - failure: response.ok was false; the error body is classified as the
    source does: not JSON at all, JSON whose detail is a string, JSON
    whose detail is an array of validation entries, or JSON without a
    usable detail (absent, or neither string nor array — both leave the
    default message);
  - network: fetch itself threw (no response), statusCode 0. -/

/-- APIRequestError from src/lib/api.ts: message, statusCode and the
optional raw validation details. -/
structure APIRequestError where
  message : String
  statusCode : ℕ
  details : Option (List ValidationError)
deriving DecidableEq

/-- Classification of an error-response body, matching the case split
performed inside the try block of apiRequest. -/
inductive ErrorBodyParse where
  | notJson
  | jsonNoDetail
  | jsonStrDetail (s : String)
  | jsonArrDetail (entries : List ValidationError)
deriving DecidableEq

/-- Outcome of the fetch call as seen by apiRequest. -/
inductive FetchOutcome where
  | success (status : ℕ) (statusText : String) (body : Except String Json)
  | failure (status : ℕ) (statusText : String) (body : ErrorBodyParse)
  | network (message : String)

/-- String rendering of one loc component, as JavaScript Array.join
coerces entries. -/
def LocKey.render : LocKey → String
  | .s v => v
  | .n v => toString v

/-- Rendering of one validation entry: loc joined with a dot, a colon,
then the message — the template literal in apiRequest. -/
def renderValidationEntry (e : ValidationError) : String :=
  String.intercalate "." (e.loc.map LocKey.render) ++ ": " ++ e.msg

/-- Rendering of a detail array: entries joined with a comma and a
space. -/
def renderDetailEntries (es : List ValidationError) : String :=
  String.intercalate ", " (es.map renderValidationEntry)

/-- Error built for a non-ok response, following the branch structure of
apiRequest: string detail used directly; array detail joined and kept as
details; non-JSON body falls back to statusText when non-empty; JSON
without usable detail keeps the default message. -/
def handleErrorResponse (status : ℕ) (statusText : String) :
    ErrorBodyParse → APIRequestError
  | .jsonStrDetail s => ⟨s, status, none⟩
  | .jsonArrDetail es => ⟨renderDetailEntries es, status, some es⟩
  | .notJson =>
    ⟨if statusText = "" then "API request failed" else statusText,
      status, none⟩
  | .jsonNoDetail => ⟨"API request failed", status, none⟩

/-- Embedding of apiRequest: ok responses return the parsed body
unvalidated; an ok response whose body fails to parse escapes to the
outer catch and surfaces with statusCode 0, exactly like a network
failure; non-ok responses throw the classified APIRequestError. -/
def apiRequest : FetchOutcome → Except APIRequestError Json
  | .success _ _ (.ok v) => .ok v
  | .success _ _ (.error m) => .error ⟨m, 0, none⟩
  | .failure st stx b => .error (handleErrorResponse st stx b)
  | .network m => .error ⟨m, 0, none⟩

/-! ## Request headers (apiRequest in src/lib/api.ts)

Headers start from Content-Type plus the caller-supplied options
headers; the Authorization header is set only when a session exists and
its access token is truthy (non-empty). -/

/-- Supabase session as read by apiRequest. -/
structure Session where
  access_token : String
deriving DecidableEq

/-- Base headers before the authorization step. -/
def baseHeaders (optionHeaders : List (String × String)) :
    List (String × String) :=
  ("Content-Type", "application/json") :: optionHeaders

/-- Headers of the outgoing request as a function of the session fetched
from the auth collaborator just before the request is issued. -/
def buildHeaders (session : Option Session)
    (optionHeaders : List (String × String)) : List (String × String) :=
  match session with
  | some s =>
    if s.access_token = "" then baseHeaders optionHeaders
    else baseHeaders optionHeaders ++
      [("Authorization", "Bearer " ++ s.access_token)]
  | none => baseHeaders optionHeaders

/-! ## Automatic retry policy

Modelled from the spec: the retry mechanism lives in the React Query
client configuration (app/providers.tsx in the README project structure),
which is not among the sources; per the spec, a TransportError (status
code 0) triggers automatic bounded retry — at most 3 attempts in one
execution, with exponential backoff between attempts — while HttpError
and domain outcomes are surfaced immediately and never retried. -/

/-- Terminal outcome of one execution including its retries. -/
inductive RunOutcome where
  | done (r : WorkflowResult)
  | failed (e : APIRequestError)
deriving DecidableEq

/-- Record of one execution: how many attempts ran, the backoff delays
slept between them, and the terminal outcome. -/
structure RetryTrace where
  attempts : ℕ
  delays : List ℕ
  outcome : RunOutcome
deriving DecidableEq

/-- Modelled from the spec: exponential backoff delay in milliseconds
before the retry following attempt n. -/
def retryDelayMs (n : ℕ) : ℕ := 1000 * 2 ^ n

/-- Modelled from the spec: attempt bound of the automatic retry. -/
def maxAttempts : ℕ := 3

/-- Modelled from the spec: run attempts starting at index i with the
given remaining budget; only a failure with statusCode 0 (transport
level) is retried, and only while budget remains. -/
def execGo (oracle : ℕ → Except APIRequestError WorkflowResult) :
    ℕ → ℕ → RetryTrace
  | _, 0 => ⟨0, [], .failed ⟨"retry budget exhausted", 0, none⟩⟩
  | i, rem + 1 =>
    match oracle i with
    | .ok r => ⟨1, [], .done r⟩
    | .error e =>
      if e.statusCode = 0 ∧ 0 < rem then
        let rest := execGo oracle (i + 1) rem
        ⟨rest.attempts + 1, retryDelayMs i :: rest.delays, rest.outcome⟩
      else ⟨1, [], .failed e⟩

/-- Modelled from the spec: one execution with the automatic bounded
retry applied; the oracle gives the result of each physical attempt. -/
def executeWithRetry (oracle : ℕ → Except APIRequestError WorkflowResult) :
    RetryTrace :=
  execGo oracle 0 maxAttempts

/-! ## Parallel comparison aggregator

Modelled from the spec: the provider-comparison page (/workflow/compare,
reachable from the dashboard and listed in the in-repo specification
section 9.4) is not among the sources; per the spec, the aggregator
ranks providers with approved == true by ascending total_cost_usd with
ties broken by ascending total_latency_ms, and produces no
recommendation when no provider is approved.  A ParallelWorkflowResult
is the provider-to-result mapping in request order. -/

/-- Ranking key of a provider result: cost first, then latency. -/
def costKey (r : WorkflowResult) : ℚ × ℚ :=
  (r.total_cost_usd, r.total_latency_ms)

/-- Strict lexicographic comparison on ranking keys. -/
def lexLtQ (a b : ℚ × ℚ) : Bool :=
  decide (a.1 < b.1) || (decide (a.1 = b.1) && decide (a.2 < b.2))

/-- Strict ranking between two provider entries. -/
def betterEntry (a b : Provider × WorkflowResult) : Bool :=
  lexLtQ (costKey a.2) (costKey b.2)

/-- Modelled from the spec: fold that keeps the best entry seen so far. -/
def pickBest : (Provider × WorkflowResult) →
    List (Provider × WorkflowResult) → Provider × WorkflowResult
  | best, [] => best
  | best, c :: cs => pickBest (if betterEntry c best then c else best) cs

/-- Entries eligible for recommendation: approved == true. -/
def approvedEntries (rs : List (Provider × WorkflowResult)) :
    List (Provider × WorkflowResult) :=
  rs.filter (fun e => e.2.self_check.approved)

/-- Modelled from the spec: the recommended provider, or none when no
entry is approved. -/
def recommendProvider (rs : List (Provider × WorkflowResult)) :
    Option Provider :=
  match approvedEntries rs with
  | [] => none
  | x :: xs => some (pickBest x xs).1

/-! ## Workflow wizard state machine
(src/components/workflow/workflow-wizard.tsx and
src/components/workflow/steps/processing-step.tsx)

The wizard holds step, formData and result.  Entering processing mounts
ProcessingStep, whose effect issues exactly one mutation; the activeRun
field models the identity of the currently mounted mutation observer
(React Query fires the mutate-level onSuccess and onError callbacks only
for the observer that is still mounted, so a response belonging to an
unmounted — cancelled or superseded — run reaches no handler).  nextRun
is the supply of fresh run identities. -/

/-- WorkflowStep union from workflow-wizard.tsx. -/
inductive WStep where
  | input
  | config
  | processing
  | results
deriving DecidableEq

/-- WorkflowFormData from workflow-wizard.tsx; temperature in tenths. -/
structure WorkflowFormData where
  input : RawInput
  provider : Provider
  model : Option String
  temperature : ℕ
deriving DecidableEq

/-- Toast notifications emitted by the ProcessingStep handlers. -/
inductive Toast where
  | success (msg : String)
  | error (msg : String)
deriving DecidableEq

/-- JavaScript s1 || s2 for strings: empty is falsy. -/
def jsStrOr (s fallback : String) : String :=
  if s = "" then fallback else s

/-- JavaScript o || s for an optional string: null and empty are falsy. -/
def jsOptOr (o : Option String) (fallback : String) : String :=
  match o with
  | some v => jsStrOr v fallback
  | none => fallback

/-- Embedding of the mutate callbacks in ProcessingStep: onSuccess calls
onComplete only when data.success is true and otherwise only toasts
data.error or the fallback; onError only toasts the error message.  The
first component is the result passed to onComplete, if any. -/
def processingOnOutcome (o : Except APIRequestError WorkflowResult) :
    Option WorkflowResult × List Toast :=
  match o with
  | .ok data =>
    if data.success then
      (some data, [Toast.success "Workflow completed successfully!"])
    else
      (none, [Toast.error (jsOptOr data.error "Workflow failed")])
  | .error e =>
    (none, [Toast.error (jsStrOr e.message "Failed to execute workflow")])

/-- Initial WorkflowFormData of the wizard (and the value the create-new
action resets to). -/
def initFormData : WorkflowFormData :=
  { input := { content := "", source := some "manual",
               customer_id := none, metadata := none },
    provider := Provider.google,
    model := none,
    temperature := 7 }

/-- State of one wizard session. -/
structure WizardState where
  step : WStep
  formData : WorkflowFormData
  result : Option WorkflowResult
  activeRun : Option ℕ
  nextRun : ℕ
deriving DecidableEq

/-- Initial wizard state. -/
def initState : WizardState :=
  { step := WStep.input, formData := initFormData, result := none,
    activeRun := none, nextRun := 0 }

/-- Events of one wizard session.  submitInput and submitConfig are the
onNext callbacks of InputStep and ConfigStep (ConfigStep submits only
provider and temperature, so model is spread through unchanged); cancel
is the onCancel of ProcessingStep; respond is the arrival of the
response of the run with the given identity; createNew is the
onCreateNew of ResultsStep. -/
inductive WizardEvent where
  | submitInput (i : RawInput)
  | submitConfig (p : Provider) (t : ℕ)
  | cancel
  | respond (tok : ℕ) (o : Except APIRequestError WorkflowResult)
  | createNew

/-- One transition of the wizard.  Each UI event applies only in the
step whose component is rendered; a response applies only when its run
is still the mounted one, and a successful outcome stores the result and
enters results while any other outcome leaves the visible state
unchanged (the toast is transient). -/
def stepFn (s : WizardState) : WizardEvent → WizardState
  | .submitInput i =>
    if s.step = WStep.input then
      { s with formData := { s.formData with input := i },
               step := WStep.config }
    else s
  | .submitConfig p t =>
    if s.step = WStep.config then
      let fd := { s.formData with provider := p, temperature := t }
      { s with formData := fd,
               step := WStep.processing,
               activeRun := some s.nextRun,
               nextRun := s.nextRun + 1 }
    else s
  | .cancel =>
    if s.step = WStep.processing then
      { s with step := WStep.config, activeRun := none }
    else s
  | .respond tok o =>
    if s.activeRun = some tok then
      match (processingOnOutcome o).1 with
      | some data =>
        { s with result := some data, step := WStep.results,
                 activeRun := none }
      | none => { s with activeRun := none }
    else s
  | .createNew =>
    if s.step = WStep.results then
      { s with formData := initFormData, result := none,
               step := WStep.input }
    else s

/-- Run a list of events from a state. -/
def runEvents (s : WizardState) (es : List WizardEvent) : WizardState :=
  es.foldl stepFn s

/-! ## Concrete fixtures

Concrete WorkflowResult values used by the claim theorems and witnesses.
Rationals are written with explicit numerator and denominator in lowest
terms so that they evaluate inside the kernel. -/

/-- Sample generated value proposition. -/
def demoValueProp : ValueProposition :=
  { headline := "Cut data entry time dramatically",
    problem := "Manual data entry wastes hours",
    solution := "Automated ingestion workflow",
    differentiation := "Multi-provider pipeline",
    quantified_value := some "80 percent time saved",
    call_to_action := "Book a demo",
    persona := Persona.business_user,
    key_talking_points := ["Saves time", "Reduces errors", "Scales easily"],
    generated_at := "2026-01-12T10:00:00Z" }

/-- Sample normalized input. -/
def demoNormalized : NormalizedInput :=
  { content := "Customer wants to automate data entry",
    language := LanguageTag.en,
    detected_pii := [],
    has_pii := false,
    cleaned_content := "Customer wants to automate data entry",
    word_count := 6,
    processed_at := "2026-01-12T10:00:00Z" }

/-- Sample extracted data. -/
def demoExtracted : ExtractedData :=
  { problem_statement := "Manual data entry is slow",
    current_solution := none,
    desired_outcome := "Automation",
    pain_points := ["slow manual process"],
    value_drivers := ["efficiency"],
    stakeholders := ["operations"],
    timeline := none,
    budget_signals := none,
    confidence_score := ⟨9, 10, by decide, by decide⟩ }

/-- Self-check with the given verdict. -/
def demoSelfCheck (ok : Bool) (reason : Option String) : SelfCheckResult :=
  { verifications := [],
    overall_accuracy := ⟨9, 10, by decide, by decide⟩,
    hallucination_risk := ⟨1, 10, by decide, by decide⟩,
    approved := ok,
    rejection_reason := reason }

/-- Successful result fixture. -/
def successResult : WorkflowResult :=
  { run_id := "run-success",
    value_proposition := demoValueProp,
    normalized_input := demoNormalized,
    extracted_data := demoExtracted,
    self_check := demoSelfCheck true none,
    total_latency_ms := 3000,
    total_cost_usd := ⟨3, 1000, by decide, by decide⟩,
    provider_used := "google",
    model_used := "gemini-2.5-flash-lite",
    success := true,
    error := none }

/-- Rejection-reason string used by the in-repo specification example. -/
def rejectionReasonMsg : String :=
  "Overall accuracy too low (0.65 < 0.7 threshold)"

/-- Self-check-rejected result fixture: success false, error null,
approved false, rejection reason present. -/
def rejResult : WorkflowResult :=
  { run_id := "run-rejected",
    value_proposition := demoValueProp,
    normalized_input := demoNormalized,
    extracted_data := demoExtracted,
    self_check := demoSelfCheck false (some rejectionReasonMsg),
    total_latency_ms := 3000,
    total_cost_usd := ⟨3, 1000, by decide, by decide⟩,
    provider_used := "google",
    model_used := "gemini-2.5-flash-lite",
    success := false,
    error := none }

/-- RawInput fixture from the query round-trip property. -/
def demoRawInput : RawInput :=
  { content := "Customer wants to automate data entry",
    source := none,
    customer_id := none,
    metadata := none }

/-- Comparison-scenario result for one provider: given cost, latency and
verdict. -/
def cmpResult (tag : String) (cost lat : ℚ) (ok : Bool) : WorkflowResult :=
  { run_id := "run-" ++ tag,
    value_proposition := demoValueProp,
    normalized_input := demoNormalized,
    extracted_data := demoExtracted,
    self_check := demoSelfCheck ok (if ok then none else some "rejected"),
    total_latency_ms := lat,
    total_cost_usd := cost,
    provider_used := tag,
    model_used := "m",
    success := ok,
    error := none }

/-- Cost 0.015 in lowest terms. -/
def costOpenai : ℚ := ⟨3, 200, by decide, by decide⟩

/-- Cost 0.008 in lowest terms. -/
def costAnthropic : ℚ := ⟨1, 125, by decide, by decide⟩

/-- Cost 0.003 in lowest terms. -/
def costGoogle : ℚ := ⟨3, 1000, by decide, by decide⟩

/-- Comparison scenario with the three providers and the given approval
flags, with the cost assignment of the recommendation property. -/
def cmpScenario (okO okA okG : Bool) : List (Provider × WorkflowResult) :=
  [(Provider.openai, cmpResult "openai" costOpenai 4000 okO),
   (Provider.anthropic, cmpResult "anthropic" costAnthropic 5500 okA),
   (Provider.google, cmpResult "google" costGoogle 3000 okG)]

/-! ## Wizard reachability invariants -/

/-- Reachability invariant of the wizard: a mounted run implies the
processing step is active and its identity was drawn from the supply. -/
def RunInv (s : WizardState) : Prop :=
  ∀ r, s.activeRun = some r → s.step = WStep.processing ∧ r < s.nextRun

theorem runInv_init : RunInv initState := by
  intro r h
  simp [initState] at h

theorem runInv_step (s : WizardState) (e : WizardEvent) (h : RunInv s) :
    RunInv (stepFn s e) := by
  cases e with
  | submitInput i =>
    by_cases hs : s.step = WStep.input
    · intro r hr
      simp only [stepFn, hs, if_true] at hr
      exact absurd ((h r hr).1.symm.trans hs) (by decide)
    · simpa only [stepFn, hs, if_false] using h
  | submitConfig p t =>
    by_cases hs : s.step = WStep.config
    · intro r hr
      simp only [stepFn, hs, if_true, Option.some.injEq] at hr
      subst hr
      exact ⟨by simp [stepFn, hs], by simp [stepFn, hs]⟩
    · simpa only [stepFn, hs, if_false] using h
  | cancel =>
    by_cases hs : s.step = WStep.processing
    · intro r hr
      simp only [stepFn, hs, if_true] at hr
      exact Option.noConfusion hr
    · simpa only [stepFn, hs, if_false] using h
  | respond tok o =>
    by_cases hs : s.activeRun = some tok
    · intro r hr
      simp only [stepFn, hs, if_true] at hr
      cases hm : (processingOnOutcome o).1 <;> simp [hm] at hr
    · simpa only [stepFn, hs, if_false] using h
  | createNew =>
    by_cases hs : s.step = WStep.results
    · intro r hr
      simp only [stepFn, hs, if_true] at hr
      exact absurd ((h r hr).1.symm.trans hs) (by decide)
    · simpa only [stepFn, hs, if_false] using h

theorem runInv_run (s : WizardState) (es : List WizardEvent) (h : RunInv s) :
    RunInv (runEvents s es) := by
  induction es generalizing s with
  | nil => exact h
  | cons e rest ih => exact ih (stepFn s e) (runInv_step s e h)

/-- Staleness of a run identity: the identity was already consumed and
is no longer the mounted one; such an identity can never become mounted
again. -/
def StaleRun (a : ℕ) (s : WizardState) : Prop :=
  a < s.nextRun ∧ s.activeRun ≠ some a

theorem staleRun_step (a : ℕ) (s : WizardState) (e : WizardEvent)
    (h : StaleRun a s) : StaleRun a (stepFn s e) := by
  obtain ⟨hlt, hne⟩ := h
  cases e with
  | submitInput i =>
    by_cases hs : s.step = WStep.input <;>
      simp only [stepFn, hs, if_true, if_false] <;> exact ⟨hlt, hne⟩
  | submitConfig p t =>
    by_cases hs : s.step = WStep.config
    · refine ⟨?_, ?_⟩
      · simp only [stepFn, hs, if_true]
        omega
      · simp only [stepFn, hs, if_true, ne_eq, Option.some.injEq]
        omega
    · simp only [stepFn, hs, if_false]
      exact ⟨hlt, hne⟩
  | cancel =>
    by_cases hs : s.step = WStep.processing
    · simp only [stepFn, hs, if_true]
      exact ⟨hlt, by simp⟩
    · simp only [stepFn, hs, if_false]
      exact ⟨hlt, hne⟩
  | respond tok o =>
    by_cases hs : s.activeRun = some tok
    · cases hm : (processingOnOutcome o).1 with
      | some data =>
        simp only [stepFn, hs, if_true, hm]
        exact ⟨hlt, by simp⟩
      | none =>
        simp only [stepFn, hs, if_true, hm]
        exact ⟨hlt, by simp⟩
    · simp only [stepFn, hs, if_false]
      exact ⟨hlt, hne⟩
  | createNew =>
    by_cases hs : s.step = WStep.results <;>
      simp only [stepFn, hs, if_true, if_false] <;> exact ⟨hlt, hne⟩

theorem staleRun_run (a : ℕ) (s : WizardState) (es : List WizardEvent)
    (h : StaleRun a s) : StaleRun a (runEvents s es) := by
  induction es generalizing s with
  | nil => exact h
  | cons e rest ih => exact ih (stepFn s e) (staleRun_step a s e h)

theorem respond_stale (a : ℕ) (s : WizardState)
    (o : Except APIRequestError WorkflowResult) (h : StaleRun a s) :
    stepFn s (WizardEvent.respond a o) = s := by
  simp only [stepFn, h.2, if_false]

/-- Session reaching the processing step: input submitted, then
configuration submitted, mounting run 0. -/
def demoConfiguredEvents : List WizardEvent :=
  [WizardEvent.submitInput demoRawInput,
   WizardEvent.submitConfig Provider.google 7]

/-- Session reaching the results step: the response of run 0 arrives
successfully while processing. -/
def demoCompletedEvents : List WizardEvent :=
  [WizardEvent.submitInput demoRawInput,
   WizardEvent.submitConfig Provider.google 7,
   WizardEvent.respond 0 (Except.ok successResult)]

/-- C1: in every workflow session, if the execution mounted while
processing is cancelled (returning the wizard to the configure step),
then whenever its response later arrives — after any further events, and
whatever the response content — the wizard state, in particular the
visible step, the held form data and the held result, is unchanged. -/
theorem cancelled_run_response_ignored (es : List WizardEvent) (a : ℕ)
    (later : List WizardEvent) (o : Except APIRequestError WorkflowResult)
    (h : (runEvents initState es).activeRun = some a) :
    stepFn (runEvents (stepFn (runEvents initState es) WizardEvent.cancel) later)
        (WizardEvent.respond a o)
      = runEvents (stepFn (runEvents initState es) WizardEvent.cancel) later := by
  set s := runEvents initState es with hsdef
  have hinv : RunInv s := runInv_run initState es runInv_init
  obtain ⟨hstep, hlt⟩ := hinv a h
  have hstale : StaleRun a (stepFn s WizardEvent.cancel) := by
    constructor
    · simp only [stepFn, hstep, if_true]
      exact hlt
    · simp only [stepFn, hstep, if_true]
      simp
  exact respond_stale a _ o (staleRun_run a _ later hstale)

/-- Witness for C1 at a concrete session: run 0 is mounted after the
two submissions, and after cancelling, the arrival of the run-0 response
changes nothing. -/
theorem cancelled_run_response_ignored_witness :
    (runEvents initState demoConfiguredEvents).activeRun = some 0 ∧
    stepFn (runEvents (stepFn (runEvents initState demoConfiguredEvents)
          WizardEvent.cancel) [])
        (WizardEvent.respond 0 (Except.error ⟨"Network error", 0, none⟩))
      = runEvents (stepFn (runEvents initState demoConfiguredEvents)
          WizardEvent.cancel) [] :=
  ⟨by rfl, cancelled_run_response_ignored demoConfiguredEvents 0 [] _ (by rfl)⟩

/-! ## Results-step invariant -/

/-- Invariant behind C10: in the results step a successful result is
held. -/
def ResInv (s : WizardState) : Prop :=
  s.step = WStep.results → ∃ r, s.result = some r ∧ r.success = true

theorem processingOnOutcome_success
    (o : Except APIRequestError WorkflowResult) (d : WorkflowResult)
    (h : (processingOnOutcome o).1 = some d) : d.success = true := by
  cases o with
  | ok data =>
    by_cases hd : data.success = true
    · simp only [processingOnOutcome, hd, if_true, Option.some.injEq] at h
      subst h
      exact hd
    · simp only [processingOnOutcome, eq_false_of_ne_true hd, Bool.false_eq_true,
        if_false] at h
      exact Option.noConfusion h
  | error e => simp [processingOnOutcome] at h

theorem resInv_step (s : WizardState) (e : WizardEvent) (h : ResInv s) :
    ResInv (stepFn s e) := by
  cases e with
  | submitInput i =>
    by_cases hs : s.step = WStep.input
    · intro hr
      simp only [stepFn, hs, if_true] at hr
      exact absurd hr (by decide)
    · simpa only [stepFn, hs, if_false] using h
  | submitConfig p t =>
    by_cases hs : s.step = WStep.config
    · intro hr
      simp only [stepFn, hs, if_true] at hr
      exact absurd hr (by decide)
    · simpa only [stepFn, hs, if_false] using h
  | cancel =>
    by_cases hs : s.step = WStep.processing
    · intro hr
      simp only [stepFn, hs, if_true] at hr
      exact absurd hr (by decide)
    · simpa only [stepFn, hs, if_false] using h
  | respond tok o =>
    by_cases hs : s.activeRun = some tok
    · cases hm : (processingOnOutcome o).1 with
      | some data =>
        intro _
        exact ⟨data, by simp [stepFn, hs, hm],
          processingOnOutcome_success o data hm⟩
      | none =>
        intro hr
        simp only [stepFn, hs, if_true, hm] at hr ⊢
        exact h hr
    · simpa only [stepFn, hs, if_false] using h
  | createNew =>
    by_cases hs : s.step = WStep.results
    · intro hr
      simp only [stepFn, hs, if_true] at hr
      exact absurd hr (by decide)
    · simpa only [stepFn, hs, if_false] using h

theorem resInv_run (s : WizardState) (es : List WizardEvent) (h : ResInv s) :
    ResInv (runEvents s es) := by
  induction es generalizing s with
  | nil => exact h
  | cons e rest ih => exact ih (stepFn s e) (resInv_step s e h)

/-- C10: in every reachable wizard state, being in the results step
implies a non-null result is held and that result has success true; the
completion callback stores a result and enters results only for
successful responses, so the results presentation never receives a
failed or absent result. -/
theorem results_step_holds_successful_result (es : List WizardEvent)
    (h : (runEvents initState es).step = WStep.results) :
    ∃ r, (runEvents initState es).result = some r ∧ r.success = true :=
  resInv_run initState es (by intro hr; exact absurd hr (by decide)) h

/-- Witness for C10 at a concrete session that reaches the results
step. -/
theorem results_step_holds_successful_result_witness :
    (runEvents initState demoCompletedEvents).step = WStep.results ∧
    ∃ r, (runEvents initState demoCompletedEvents).result = some r ∧
      r.success = true :=
  ⟨by rfl, results_step_holds_successful_result demoCompletedEvents (by rfl)⟩

/-- C3: the self-check-rejected outcome (success false, approved false,
rejection reason present, error null) is not surfaced as a distinct
rejection case by ProcessingStep: the handler emits only the generic
fallback toast, the exact rejection reason appears in no toast and is
never rendered, no completion is delivered, and the wizard stays in the
processing step — contradicting the in-repo specification section 9.3
scenario 1, which requires displaying the rejection reason with edit and
retry options. -/
theorem rejection_reason_never_surfaced :
    processingOnOutcome (Except.ok rejResult)
      = (none, [Toast.error "Workflow failed"]) ∧
    rejResult.self_check.rejection_reason = some rejectionReasonMsg ∧
    "Workflow failed" ≠ rejectionReasonMsg ∧
    (stepFn (runEvents initState demoConfiguredEvents)
        (WizardEvent.respond 0 (Except.ok rejResult))).step
      = WStep.processing ∧
    (stepFn (runEvents initState demoConfiguredEvents)
        (WizardEvent.respond 0 (Except.ok rejResult))).result = none :=
  ⟨by rfl, by rfl, by decide, by rfl, by rfl⟩

/-- C4 counterexample: a string of ten spaces has trimmed length 0,
below the minimum of 10, yet the validator accepts it — the claimed
trimmed-length rejection rule does not hold of the code, which never
trims. -/
theorem content_validator_ignores_trimming :
    (jsTrim "          ").length < contentMinLength ∧
    validateContent "          " = none := by
  decide

/-- C4 amended: the validator compares the raw (untrimmed) length
against the minimum of 10: shorter strings are rejected with the
content-too-short message naming the minimum, and strings of length at
least 10 are accepted.  The validator is a pure function, so the
rejection is identical on every re-evaluation. -/
theorem content_min_length_rule (s : String) :
    (s.length < contentMinLength →
      validateContent s = some contentTooShortMsg) ∧
    (contentMinLength ≤ s.length → validateContent s = none) := by
  refine ⟨fun h => ?_, fun h => ?_⟩
  · simp [validateContent, h]
  · simp [validateContent, Nat.not_lt.mpr h]

/-- Witness for C4 at concrete inputs on both sides of the bound. -/
theorem content_min_length_rule_witness :
    ("short".length < contentMinLength ∧
      validateContent "short" = some contentTooShortMsg) ∧
    (contentMinLength ≤ "Customer wants to automate data entry".length ∧
      validateContent "Customer wants to automate data entry" = none) :=
  ⟨⟨by decide, (content_min_length_rule "short").1 (by decide)⟩,
   ⟨by decide,
    (content_min_length_rule "Customer wants to automate data entry").2
      (by decide)⟩⟩

/-- C5 counterexample: a success-status (200) response whose body is not
valid JSON surfaces with status code 0 — the response status is not
preserved — and a pure network failure also carries status code 0, so
the two failure kinds are not distinguishable by status code. -/
theorem decode_failure_status_not_preserved :
    apiRequest (FetchOutcome.success 200 "OK"
        (Except.error "Unexpected end of JSON input"))
      = Except.error ⟨"Unexpected end of JSON input", 0, none⟩ ∧
    apiRequest (FetchOutcome.network "Failed to fetch")
      = Except.error ⟨"Failed to fetch", 0, none⟩ :=
  ⟨rfl, rfl⟩

/-- C5 amended: a non-success response whose body is not valid JSON
fails with an error carrying that response status and a generic message
(the status text, or the default when it is empty); a success-status
response whose body is not valid JSON escapes to the outer catch and
fails with status code 0, indistinguishable by status code from a
network-level failure, which also fails with status code 0; a
success-status response with valid JSON of any shape is returned as-is
without shape validation. -/
theorem apiRequest_failure_taxonomy :
    (∀ st stx, apiRequest (FetchOutcome.failure st stx ErrorBodyParse.notJson)
        = Except.error
            ⟨if stx = "" then "API request failed" else stx, st, none⟩) ∧
    (∀ st stx m, apiRequest (FetchOutcome.success st stx (Except.error m))
        = Except.error ⟨m, 0, none⟩) ∧
    (∀ m, apiRequest (FetchOutcome.network m) = Except.error ⟨m, 0, none⟩) ∧
    (∀ st stx v, apiRequest (FetchOutcome.success st stx (Except.ok v))
        = Except.ok v) :=
  ⟨fun _ _ => rfl, fun _ _ _ => rfl, fun _ => rfl, fun _ _ _ => rfl⟩

/-- C6 counterexample: on a non-success response whose body is valid
JSON but has no usable detail field, the message is the generic default,
not the transport status text. -/
theorem http_error_statusText_not_used_for_json_body :
    apiRequest (FetchOutcome.failure 500 "Internal Server Error"
        ErrorBodyParse.jsonNoDetail)
      = Except.error ⟨"API request failed", 500, none⟩ ∧
    "API request failed" ≠ "Internal Server Error" :=
  ⟨rfl, by decide⟩

/-- C6 amended: for every non-success response the thrown error carries
the response status code, and its message comes from the structured
detail when usable — a string detail directly; an array detail joined
into one message (each entry as its loc path joined with dots, a colon,
then its msg, entries comma-separated) with the raw array kept as
details — while the status-text fallback applies only when the body is
not valid JSON (empty status text falling back to the default), and a
valid-JSON body without usable detail yields the generic default
message. -/
theorem http_error_message_construction :
    (∀ st stx s, apiRequest (FetchOutcome.failure st stx
        (ErrorBodyParse.jsonStrDetail s)) = Except.error ⟨s, st, none⟩) ∧
    (∀ st stx es, apiRequest (FetchOutcome.failure st stx
        (ErrorBodyParse.jsonArrDetail es))
      = Except.error ⟨renderDetailEntries es, st, some es⟩) ∧
    (∀ st stx, apiRequest (FetchOutcome.failure st stx ErrorBodyParse.notJson)
        = Except.error
            ⟨if stx = "" then "API request failed" else stx, st, none⟩) ∧
    (∀ st stx, apiRequest (FetchOutcome.failure st stx
        ErrorBodyParse.jsonNoDetail)
      = Except.error ⟨"API request failed", st, none⟩) ∧
    renderValidationEntry
        ⟨[LocKey.s "body", LocKey.s "content"],
          "String should have at least 10 characters", "string_too_short"⟩
      = "body.content: String should have at least 10 characters" :=
  ⟨fun _ _ _ => rfl, fun _ _ _ => rfl, fun _ _ => rfl, fun _ _ => rfl,
   by decide⟩

theorem lookupStr_append (xs ys : List (String × String)) (k : String) :
    lookupStr (xs ++ ys) k =
      match lookupStr xs k with
      | some v => some v
      | none => lookupStr ys k := by
  induction xs with
  | nil => rfl
  | cons p rest ih =>
    obtain ⟨pk, pv⟩ := p
    by_cases hk : pk = k
    · simp [lookupStr, hk]
    · simp [lookupStr, hk, ih]

/-- C9: the request headers are computed from the session fetched from
the auth collaborator just before the request: with no session (or an
empty access token) no Authorization header is present at all — never a
malformed bearer value — and with a non-empty access token the header is
exactly Bearer followed by the token; a server rejection of an
unauthenticated request surfaces as a normal HttpError carrying the
response status and message. -/
theorem auth_header_policy (optionHeaders : List (String × String))
    (hopt : lookupStr optionHeaders "Authorization" = none) :
    lookupStr (buildHeaders none optionHeaders) "Authorization" = none ∧
    (∀ s : Session, s.access_token ≠ "" →
      lookupStr (buildHeaders (some s) optionHeaders) "Authorization"
        = some ("Bearer " ++ s.access_token)) ∧
    (∀ s : Session, s.access_token = "" →
      lookupStr (buildHeaders (some s) optionHeaders) "Authorization"
        = none) ∧
    (∀ st stx m, apiRequest (FetchOutcome.failure st stx
        (ErrorBodyParse.jsonStrDetail m)) = Except.error ⟨m, st, none⟩) := by
  have hbase : lookupStr (baseHeaders optionHeaders) "Authorization" = none := by
    simp [baseHeaders, lookupStr, hopt]
  refine ⟨?_, ?_, ?_, fun _ _ _ => rfl⟩
  · simpa [buildHeaders] using hbase
  · intro s hs
    simp [buildHeaders, hs, lookupStr_append, hbase, lookupStr, hopt]
  · intro s hs
    simpa [buildHeaders, hs] using hbase

/-- Witness for C9 with empty option headers and the token tok. -/
theorem auth_header_policy_witness :
    lookupStr ([] : List (String × String)) "Authorization" = none ∧
    lookupStr (buildHeaders (some ⟨"tok"⟩) []) "Authorization"
      = some ("Bearer " ++ "tok") ∧
    lookupStr (buildHeaders none []) "Authorization" = none :=
  ⟨by rfl,
   (auth_header_policy [] (by rfl)).2.1 ⟨"tok"⟩ (by decide),
   (auth_header_policy [] (by rfl)).1⟩

theorem execGo_attempts_le
    (oracle : ℕ → Except APIRequestError WorkflowResult) (rem i : ℕ) :
    (execGo oracle i rem).attempts ≤ rem := by
  induction rem generalizing i with
  | zero => simp [execGo]
  | succ n ih =>
    simp only [execGo]
    cases oracle i with
    | ok r => simp
    | error e =>
      by_cases hc : e.statusCode = 0 ∧ 0 < n
      · simp only [hc, if_true]
        exact Nat.succ_le_succ (ih (i + 1))
      · simp only [hc, if_false]
        omega

/-- C2: spec-modelled retry bound.  When every attempt fails at the
transport level (status code 0), exactly 3 attempts run with the
exponential backoff delays between them and the execution ends in a
terminal transport failure; a first-attempt HttpError (non-zero status)
is surfaced after exactly 1 attempt with no retry, a first-attempt
response — including a domain rejection carried in the response body —
settles after exactly 1 attempt with no retry, and no oracle whatsoever
can make a fourth attempt occur. -/
theorem transport_retry_bound :
    (∀ oracle : ℕ → Except APIRequestError WorkflowResult,
      (∀ i, ∃ e, oracle i = Except.error e ∧ e.statusCode = 0) →
      (executeWithRetry oracle).attempts = 3 ∧
      (executeWithRetry oracle).delays = [retryDelayMs 0, retryDelayMs 1] ∧
      ∃ e, (executeWithRetry oracle).outcome = RunOutcome.failed e ∧
        e.statusCode = 0) ∧
    (∀ (oracle : ℕ → Except APIRequestError WorkflowResult) e,
      oracle 0 = Except.error e → e.statusCode ≠ 0 →
      executeWithRetry oracle = ⟨1, [], RunOutcome.failed e⟩) ∧
    (∀ (oracle : ℕ → Except APIRequestError WorkflowResult) r,
      oracle 0 = Except.ok r →
      executeWithRetry oracle = ⟨1, [], RunOutcome.done r⟩) ∧
    (∀ oracle : ℕ → Except APIRequestError WorkflowResult,
      (executeWithRetry oracle).attempts ≤ 3) := by
  refine ⟨?_, ?_, ?_, ?_⟩
  · intro oracle h
    obtain ⟨e0, h0, he0⟩ := h 0
    obtain ⟨e1, h1, he1⟩ := h 1
    obtain ⟨e2, h2, he2⟩ := h 2
    have : executeWithRetry oracle = ⟨3, [retryDelayMs 0, retryDelayMs 1],
        RunOutcome.failed e2⟩ := by
      simp [executeWithRetry, maxAttempts, execGo, h0, h1, h2, he0, he1, he2]
    rw [this]
    exact ⟨rfl, rfl, e2, rfl, he2⟩
  · intro oracle e h0 hne
    simp [executeWithRetry, maxAttempts, execGo, h0, hne]
  · intro oracle r h0
    simp [executeWithRetry, maxAttempts, execGo, h0]
  · intro oracle
    exact execGo_attempts_le oracle 3 0

/-- Witness for C2: the oracle that always fails at the transport level
runs exactly 3 attempts, sleeps the exponential delays, and ends in a
terminal transport failure. -/
theorem transport_retry_bound_witness :
    (executeWithRetry (fun _ =>
        Except.error ⟨"Network error", 0, none⟩)).attempts = 3 ∧
    (executeWithRetry (fun _ =>
        Except.error ⟨"Network error", 0, none⟩)).delays
      = [retryDelayMs 0, retryDelayMs 1] ∧
    ∃ e, (executeWithRetry (fun _ =>
        Except.error ⟨"Network error", 0, none⟩)).outcome
        = RunOutcome.failed e ∧ e.statusCode = 0 :=
  transport_retry_bound.1 (fun _ => Except.error ⟨"Network error", 0, none⟩)
    (fun _ => ⟨⟨"Network error", 0, none⟩, rfl, rfl⟩)

theorem parseTemp_round (t : ℕ) (ht : t < 21) :
    parseTemp (tempToString t) = some t := by
  revert t
  decide

theorem decodeMetaFields_map (m : List (String × String)) :
    decodeMetaFields (m.map fun kv => (kv.1, Json.str kv.2)) = some m := by
  induction m with
  | nil => rfl
  | cons kv rest ih =>
    obtain ⟨k, v⟩ := kv
    simp [decodeMetaFields, ih]

theorem decode_encode_rawInput (i : RawInput) :
    decodeRawInput (encodeRawInput i) = some i := by
  obtain ⟨c, so, ci, me⟩ := i
  cases so <;> cases ci <;> cases me <;>
    simp [decodeRawInput, encodeRawInput, optField, Json.getField,
      lookupField, decodeOptField, decodeStr, decodeMeta, metaJson,
      decodeMetaFields_map]

/-- C8 counterexample: with a present but empty model override the query
omits the model parameter, although the claim requires the model to be
encoded whenever present. -/
theorem model_param_dropped_when_present_empty :
    buildExecuteQuery Provider.google (some "") 7
      = [("provider", "google"), ("temperature", "0.7")] ∧
    lookupStr (buildExecuteQuery Provider.google (some "") 7) "model"
      = none := by
  exact ⟨by decide, by decide⟩

/-- C8 amended: for every RawInput and configuration (temperature a
slider value, in tenths below 21), the query encodes provider and
temperature so that decoding recovers exactly the provider and
temperature given; the model parameter is included exactly when the
model is present and non-empty (a present empty model is dropped, since
JavaScript treats the empty string as falsy); and the body is the
serialized RawInput, whose decoding recovers the exact input object. -/
theorem execute_request_round_trip (p : Provider) (m : Option String)
    (t : ℕ) (i : RawInput) (ht : t < 21) :
    ((lookupStr (buildExecuteQuery p m t) "provider").bind parseProviderTag
        = some p) ∧
    ((lookupStr (buildExecuteQuery p m t) "temperature").bind parseTemp
        = some t) ∧
    (∀ s, m = some s → s ≠ "" →
      lookupStr (buildExecuteQuery p m t) "model" = some s) ∧
    ((m = none ∨ m = some "") →
      lookupStr (buildExecuteQuery p m t) "model" = none) ∧
    decodeRawInput (encodeRawInput i) = some i := by
  refine ⟨?_, ?_, ?_, ?_, decode_encode_rawInput i⟩
  · cases p <;> rfl
  · simp [buildExecuteQuery, lookupStr, parseTemp_round t ht]
  · rintro s rfl hs
    simp [buildExecuteQuery, lookupStr, hs]
  · rintro (rfl | rfl) <;> simp [buildExecuteQuery, lookupStr]

/-- Witness for C8 at the round-trip property instance: default provider
google, default temperature 0.7, no model, and the sample input. -/
theorem execute_request_round_trip_witness :
    (7 < 21) ∧
    ((lookupStr (buildExecuteQuery Provider.google none 7)
        "provider").bind parseProviderTag = some Provider.google) ∧
    ((lookupStr (buildExecuteQuery Provider.google none 7)
        "temperature").bind parseTemp = some 7) ∧
    decodeRawInput (encodeRawInput demoRawInput) = some demoRawInput :=
  ⟨by decide,
   (execute_request_round_trip Provider.google none 7 demoRawInput
      (by decide)).1,
   (execute_request_round_trip Provider.google none 7 demoRawInput
      (by decide)).2.1,
   (execute_request_round_trip Provider.google none 7 demoRawInput
      (by decide)).2.2.2.2⟩

theorem lexLtQ_eq_true_iff (a b : ℚ × ℚ) :
    lexLtQ a b = true ↔ a.1 < b.1 ∨ (a.1 = b.1 ∧ a.2 < b.2) := by
  simp [lexLtQ]

theorem lexLtQ_irrefl (a : ℚ × ℚ) : lexLtQ a a = false := by
  simp [lexLtQ]

theorem lexLtQ_trans (a b c : ℚ × ℚ) (h1 : lexLtQ a b = true)
    (h2 : lexLtQ b c = true) : lexLtQ a c = true := by
  rw [lexLtQ_eq_true_iff] at *
  rcases h1 with h1 | ⟨h1e, h1l⟩ <;> rcases h2 with h2 | ⟨h2e, h2l⟩
  · exact Or.inl (lt_trans h1 h2)
  · exact Or.inl (h2e ▸ h1)
  · exact Or.inl (by rw [h1e]; exact h2)
  · exact Or.inr ⟨h1e.trans h2e, lt_trans h1l h2l⟩

theorem lexLtQ_neg_trans (a b c : ℚ × ℚ) (h1 : lexLtQ a b = false)
    (h2 : lexLtQ b c = false) : lexLtQ a c = false := by
  rw [← Bool.not_eq_true, lexLtQ_eq_true_iff] at *
  intro hac
  rcases lt_trichotomy a.1 b.1 with hab | hab | hab
  · exact h1 (Or.inl hab)
  · rcases lt_trichotomy a.2 b.2 with hab2 | hab2 | hab2
    · exact h1 (Or.inr ⟨hab, hab2⟩)
    · rcases hac with hac | ⟨hace, hacl⟩
      · exact h2 (Or.inl (by rw [← hab]; exact hac))
      · exact h2 (Or.inr ⟨by rw [← hab, ← hace], by rw [← hab2]; exact hacl⟩)
    · rcases hac with hac | ⟨hace, hacl⟩
      · exact h2 (Or.inl (by rw [← hab]; exact hac))
      · exact h2 (Or.inr ⟨by rw [← hab, ← hace], by
          exact lt_trans hab2 hacl⟩)
  · rcases hac with hac | ⟨hace, hacl⟩
    · exact h2 (Or.inl (lt_trans hab hac))
    · exact h2 (Or.inl (by rw [← hace]; exact hab))

theorem betterEntry_trans (a b c : Provider × WorkflowResult)
    (h1 : betterEntry a b = true) (h2 : betterEntry b c = true) :
    betterEntry a c = true :=
  lexLtQ_trans _ _ _ h1 h2

theorem betterEntry_neg_trans (a b c : Provider × WorkflowResult)
    (h1 : betterEntry a b = false) (h2 : betterEntry b c = false) :
    betterEntry a c = false :=
  lexLtQ_neg_trans _ _ _ h1 h2

theorem betterEntry_irrefl (a : Provider × WorkflowResult) :
    betterEntry a a = false :=
  lexLtQ_irrefl _

theorem pickBest_mem (xs : List (Provider × WorkflowResult))
    (best : Provider × WorkflowResult) :
    pickBest best xs ∈ best :: xs := by
  induction xs generalizing best with
  | nil => simp [pickBest]
  | cons c cs ih =>
    simp only [pickBest]
    have ih2 := ih (if betterEntry c best then c else best)
    rcases List.mem_cons.mp ih2 with h | h
    · rw [h]
      split
      · exact List.mem_cons_of_mem _ (List.mem_cons_self _ _)
      · exact List.mem_cons_self _ _
    · exact List.mem_cons_of_mem _ (List.mem_cons_of_mem _ h)

theorem pickBest_min (xs : List (Provider × WorkflowResult))
    (best : Provider × WorkflowResult) :
    ∀ y ∈ best :: xs, betterEntry y (pickBest best xs) = false := by
  induction xs generalizing best with
  | nil =>
    intro y hy
    rcases List.mem_cons.mp hy with rfl | hy2
    · simpa [pickBest] using betterEntry_irrefl y
    · exact absurd hy2 (List.not_mem_nil y)
  | cons c cs ih =>
    intro y hy
    simp only [pickBest]
    by_cases hcb : betterEntry c best = true
    · rw [if_pos hcb]
      rcases List.mem_cons.mp hy with hyb | hy2
      · subst hyb
        cases hbx : betterEntry y (pickBest c cs) with
        | false => rfl
        | true =>
          have hcx : betterEntry c (pickBest c cs) = true :=
            betterEntry_trans c y (pickBest c cs) hcb hbx
          rw [ih c c (List.mem_cons_self c cs)] at hcx
          exact absurd hcx (by simp)
      · exact ih c y hy2
    · have hcb' : betterEntry c best = false := by
        revert hcb
        cases betterEntry c best <;> simp
      rw [if_neg hcb]
      rcases List.mem_cons.mp hy with hyb | hy2
      · subst hyb
        exact ih y y (List.mem_cons_self y cs)
      · rcases List.mem_cons.mp hy2 with hyc | hy3
        · subst hyc
          exact betterEntry_neg_trans y best (pickBest best cs) hcb'
            (ih best best (List.mem_cons_self best cs))
        · exact ih best y (List.mem_cons_of_mem _ hy3)

/-- C7: spec-modelled recommendation.  Whenever a recommendation is
produced it names an approved entry that no approved entry beats in the
cost-then-latency lexicographic order (so only approved providers are
considered, ranked by ascending cost with latency as tie-break); no
recommendation is produced exactly when no provider is approved; and on
the concrete scenario with costs openai 0.015, anthropic 0.008, google
0.003 the recommendation is google when all are approved, anthropic when
google is not approved, and absent when none is approved. -/
theorem provider_recommendation :
    (∀ (rs : List (Provider × WorkflowResult)) (p : Provider),
      recommendProvider rs = some p →
      ∃ e, e ∈ approvedEntries rs ∧ e.1 = p ∧
        ∀ y ∈ approvedEntries rs, betterEntry y e = false) ∧
    (∀ rs : List (Provider × WorkflowResult),
      approvedEntries rs = [] ↔ recommendProvider rs = none) ∧
    (costOpenai = 0.015 ∧ costAnthropic = 0.008 ∧ costGoogle = 0.003) ∧
    recommendProvider (cmpScenario true true true) = some Provider.google ∧
    recommendProvider (cmpScenario true true false)
      = some Provider.anthropic ∧
    recommendProvider (cmpScenario false false false) = none := by
  refine ⟨?_, ?_, ⟨?_, ?_, ?_⟩, by decide, by decide, by decide⟩
  · intro rs p hp
    cases happ : approvedEntries rs with
    | nil =>
      rw [recommendProvider, happ] at hp
      exact Option.noConfusion hp
    | cons x xs =>
      rw [recommendProvider, happ] at hp
      refine ⟨pickBest x xs, ?_, by injection hp, ?_⟩
      · exact pickBest_mem xs x
      · intro y hy
        exact pickBest_min xs x y hy
  · intro rs
    constructor
    · intro h
      rw [recommendProvider, h]
    · intro h
      cases happ : approvedEntries rs with
      | nil => rfl
      | cons x xs =>
        rw [recommendProvider, happ] at h
        exact Option.noConfusion h
  · rw [costOpenai, Rat.mk'_eq_divInt, Rat.divInt_eq_div]
    norm_num
  · rw [costAnthropic, Rat.mk'_eq_divInt, Rat.divInt_eq_div]
    norm_num
  · rw [costGoogle, Rat.mk'_eq_divInt, Rat.divInt_eq_div]
    norm_num

/-- Witness for C7: the all-approved scenario recommends google, and
google is an approved entry unbeaten in the ranking order. -/
theorem provider_recommendation_witness :
    recommendProvider (cmpScenario true true true) = some Provider.google ∧
    ∃ e, e ∈ approvedEntries (cmpScenario true true true) ∧
      e.1 = Provider.google ∧
      ∀ y ∈ approvedEntries (cmpScenario true true true),
        betterEntry y e = false :=
  ⟨by decide,
   provider_recommendation.1 (cmpScenario true true true) Provider.google
     (by decide)⟩
